import Mathlib

/-!
Verification of the content-publishing pipeline of the `www` repository.

The repository itself contains the content set (mdx documents under
`_blog/` and `_launchpad/`) and presentational components
(`components/svgs/beta/CloudIcon.tsx`); the pipeline stages themselves
(Document Parser, Component Registry, Content Index Builder, Render
Resolver, Build Orchestrator) are described by the specification and are
modelled here from the spec.  Concrete content units (frontmatter headers,
paths) and the CloudIcon component are embedded from the source files.
-/

namespace Www

/-! ### Character-level helpers for date parsing and slug derivation -/

/-- Split a character list on a separator character.  Used by the date
parser (separators `T`, `-`, `:`) and by slug derivation (`/`, `.`). -/
def splitOnChar (c : Char) : List Char → List (List Char)
  | [] => [[]]
  | x :: xs =>
    let r := splitOnChar c xs
    if x = c then [] :: r
    else
      match r with
      | [] => [[x]]
      | y :: ys => (x :: y) :: ys

/-- Read a non-empty all-digit character list as a natural number. -/
def digitsToNat? (cs : List Char) : Option Nat :=
  if cs = [] then none
  else if cs.all Char.isDigit then
    some (cs.foldl (fun n c => n * 10 + (c.toNat - 48)) 0)
  else none

/-! ### Calendar date-times

Modelled from the spec: the publish date-time "must parse as a valid
calendar date-time".  Date strings in the content headers have the shape
`YYYY-MM-DDTHH:MM:SS`. -/

/-- A parsed calendar date-time. -/
structure DateTime where
  year : Nat
  month : Nat
  day : Nat
  hour : Nat
  minute : Nat
  second : Nat
  deriving DecidableEq, Repr

/-- Gregorian leap-year rule. -/
def isLeap (y : Nat) : Bool :=
  y % 4 = 0 && (y % 100 ≠ 0 || y % 400 = 0)

/-- Number of days in a month of a given year. -/
def daysInMonth (y m : Nat) : Nat :=
  if m = 2 then (if isLeap y then 29 else 28)
  else if m = 4 || m = 6 || m = 9 || m = 11 then 30
  else 31

/-- Validity of a calendar date-time. -/
def DateTime.valid (d : DateTime) : Bool :=
  1 ≤ d.month && d.month ≤ 12 &&
  1 ≤ d.day && d.day ≤ daysInMonth d.year d.month &&
  d.hour ≤ 23 && d.minute ≤ 59 && d.second ≤ 59

/-- Modelled from the spec: parse a `YYYY-MM-DDTHH:MM:SS` string into a
valid calendar date-time; `none` when malformed or not a real calendar
date (the Document Parser treats that as an invalid date field). -/
def parseDateTime (s : String) : Option DateTime :=
  match splitOnChar 'T' s.toList with
  | [ds, ts] =>
    match splitOnChar '-' ds, splitOnChar ':' ts with
    | [ys, ms, dys], [hs, mins, secs] =>
      match digitsToNat? ys, digitsToNat? ms, digitsToNat? dys,
            digitsToNat? hs, digitsToNat? mins, digitsToNat? secs with
      | some y, some mo, some dy, some h, some mi, some se =>
        let dt : DateTime :=
          { year := y, month := mo, day := dy,
            hour := h, minute := mi, second := se }
        if dt.valid then some dt else none
      | _, _, _, _, _, _ => none
    | _, _ => none
  | _ => none

/-- Numeric key of a date-time, strictly monotone in the lexicographic
(year, month, day, hour, minute, second) order; used as the sort key. -/
def DateTime.key (d : DateTime) : Nat :=
  ((((d.year * 13 + d.month) * 32 + d.day) * 24 + d.hour) * 60 + d.minute)
    * 60 + d.second

/-! ### Raw content units and the Document Parser -/

/-- Metadata header of one raw content unit: the key/value fields the
spec enumerates, already split at the file-format boundary (the spec
leaves the physical file format unprescribed; the parser contract starts
from key/value fields). -/
structure Header where
  title : Option String := none
  date : Option String := none
  author : Option String := none
  slug : Option String := none
  description : Option String := none
  tags : List String := []
  thumb : Option String := none
  cover : Option String := none
  deriving DecidableEq, Repr

/-- A node of a document body: ordered text and component references. -/
inductive BodyNode where
  | text (s : String)
  | componentRef (name : String)
  deriving DecidableEq, Repr

/-- One raw content unit: identifying path, metadata header, body, and
the raw input bytes (used only for the content fingerprint). -/
structure RawUnit where
  path : String
  header : Header
  body : List BodyNode
  bytes : List Nat
  deriving DecidableEq, Repr

/-- Error taxonomy of the pipeline, modelled from the spec. -/
inductive BuildError where
  | malformedContent (field : String)
  | unknownComponent (name : String)
  | duplicateComponent (name : String)
  | duplicateSlug (slug : String)
  deriving DecidableEq, Repr

/-- Modelled from the spec: derive the slug deterministically from the
content unit's identifying path component — the path's basename without
its extension, kept as literal (unvalidated) text. -/
def deriveSlug (path : String) : String :=
  match (splitOnChar '/' path.toList).getLast? with
  | none => ""
  | some base =>
    match splitOnChar '.' base with
    | [] => ""
    | stem :: _ => String.mk stem

/-- Slug of a raw unit: the explicit header field when present,
otherwise derived from the path. -/
def slugOfUnit (u : RawUnit) : String :=
  match u.header.slug with
  | some s => s
  | none => deriveSlug u.path

/-- A parsed document. -/
structure Document where
  slug : String
  title : String
  author : String
  date : DateTime
  tags : List String
  description : Option String
  thumb : Option String
  cover : Option String
  body : List BodyNode
  deriving DecidableEq, Repr

/-- Modelled from the spec: the Document Parser.  Requires a title, a
publish date-time that parses as a valid calendar date-time, and a
non-empty author; optional fields default without error; slug derivation
as in `slugOfUnit`; pure in its single raw input. -/
def parseDocument (u : RawUnit) : Except BuildError Document :=
  match u.header.title with
  | none => .error (.malformedContent "title")
  | some t =>
    match u.header.date with
    | none => .error (.malformedContent "date")
    | some ds =>
      match parseDateTime ds with
      | none => .error (.malformedContent "date")
      | some dt =>
        match u.header.author with
        | none => .error (.malformedContent "author")
        | some a =>
          if a = "" then .error (.malformedContent "author")
          else
            .ok { slug := slugOfUnit u, title := t, author := a,
                  date := dt, tags := u.header.tags,
                  description := u.header.description,
                  thumb := u.header.thumb, cover := u.header.cover,
                  body := u.body }

/-- First missing or invalid required field of a header, in the order
the spec lists them (title, publish date-time, author); `none` when all
required fields are present and well-formed. -/
def missingRequired (h : Header) : Option String :=
  if h.title = none then some "title"
  else if (h.date.bind parseDateTime) = none then some "date"
  else if h.author = none ∨ h.author = some "" then some "author"
  else none

/-! ### Component Registry

Modelled from the spec: a closed mapping from component name to a
zero-parameter presentational unit; each named component renders one
fixed artifact (here: an SVG vector shape, the only component kind the
repository contains). -/

/-- A fixed SVG artifact, the rendered output of a presentational
component. -/
structure Svg where
  width : Nat
  height : Nat
  viewBox : String
  fill : String
  pathData : String
  deriving DecidableEq, Repr

/-- A renderer of a zero-parameter presentational component: one fixed
artifact. -/
abbrev Renderer := Svg

/-- The Component Registry: named renderers, populated once at
startup. -/
abbrev Registry := List (String × Renderer)

/-- Look up a name in the registry (first binding wins). -/
def lookupReg (reg : Registry) (name : String) : Option Renderer :=
  match reg with
  | [] => none
  | (n, r) :: rest => if n = name then some r else lookupReg rest name

/-- Modelled from the spec: `register` fails with `DuplicateComponent`
when the name is already present. -/
def register (reg : Registry) (name : String) (r : Renderer) :
    Except BuildError Registry :=
  match lookupReg reg name with
  | some _ => .error (.duplicateComponent name)
  | none => .ok (reg ++ [(name, r)])

/-- Modelled from the spec: `resolve` fails with `UnknownComponent` when
the name is absent. -/
def resolveComponent (reg : Registry) (name : String) :
    Except BuildError Renderer :=
  match lookupReg reg name with
  | some r => .ok r
  | none => .error (.unknownComponent name)

/-- Populate a registry from the startup component list, registering
each entry exactly once. -/
def registerAll (inits : List (String × Renderer)) :
    Except BuildError Registry :=
  inits.foldlM (fun reg p => register reg p.1 p.2) []

/-! ### Render Resolver -/

/-- A fragment of a resolved render tree: a text fragment or the
resolved output of a component reference. -/
inductive Fragment where
  | text (s : String)
  | rendered (name : String) (out : Svg)
  deriving DecidableEq, Repr

/-- Markup emitted for one fragment. -/
def fragMarkup : Fragment → String
  | .text s => s
  | .rendered _ out =>
    "<svg width=\"" ++ toString out.width ++ "\" height=\"" ++
    toString out.height ++ "\" viewBox=\"" ++ out.viewBox ++
    "\" fill=\"" ++ out.fill ++ "\"><path d=\"" ++ out.pathData ++
    "\" /></svg>"

/-- Byte serialization of a render tree, modelled as the code-point
sequence of its concatenated markup. -/
def renderTreeBytes (t : List Fragment) : List Nat :=
  (String.join (t.map fragMarkup)).toList.map Char.toNat

/-- Modelled from the spec: the Render Resolver.  Walks the body in its
original order; every component reference is looked up in the registry
and an unresolved reference fails the whole document with
`UnknownComponent` — no partial tree is produced.  A pure function of
(body, registry). -/
def resolveBody (reg : Registry) : List BodyNode → Except BuildError (List Fragment)
  | [] => .ok []
  | .text s :: rest =>
    match resolveBody reg rest with
    | .error e => .error e
    | .ok fs => .ok (.text s :: fs)
  | .componentRef n :: rest =>
    match lookupReg reg n with
    | none => .error (.unknownComponent n)
    | some r =>
      match resolveBody reg rest with
      | .error e => .error e
      | .ok fs => .ok (.rendered n r :: fs)

/-- The fragment a single body node resolves to, when it resolves. -/
def fragOfNode (reg : Registry) : BodyNode → Option Fragment
  | .text s => some (.text s)
  | .componentRef n => (lookupReg reg n).map (.rendered n ·)

/-! ### Content Index Builder -/

/-- Modelled from the spec: the master-sequence order — publish
date-time descending, ties broken by slug ascending. -/
def docBefore (a b : Document) : Prop :=
  b.date.key < a.date.key ∨ (a.date.key = b.date.key ∧ a.slug ≤ b.slug)

instance : DecidableRel docBefore := fun a b =>
  inferInstanceAs
    (Decidable (b.date.key < a.date.key ∨
      (a.date.key = b.date.key ∧ a.slug ≤ b.slug)))

instance : IsTotal Document docBefore where
  total a b := by
    rcases lt_trichotomy a.date.key b.date.key with h | h | h
    · exact Or.inr (Or.inl h)
    · rcases le_total a.slug b.slug with hs | hs
      · exact Or.inl (Or.inr ⟨h, hs⟩)
      · exact Or.inr (Or.inr ⟨h.symm, hs⟩)
    · exact Or.inl (Or.inl h)

instance : IsTrans Document docBefore where
  trans a b c hab hbc := by
    rcases hab with hab | ⟨hab, hab'⟩ <;> rcases hbc with hbc | ⟨hbc, hbc'⟩
    · exact Or.inl (hbc.trans hab)
    · exact Or.inl (hbc ▸ hab)
    · exact Or.inl (hab ▸ hbc)
    · exact Or.inr ⟨hab.trans hbc, hab'.trans hbc'⟩

/-- Modelled from the spec: the date-ordered master sequence of the
Content Index Builder. -/
def masterSeq (docs : List Document) : List Document :=
  List.insertionSort docBefore docs

/-- Modelled from the spec: the TagIndex — for a tag, the master-ordered
sequence of documents carrying it. -/
def tagIndexOf (docs : List Document) (tag : String) : List Document :=
  (masterSeq docs).filter (fun d => d.tags.contains tag)

/-- Modelled from the spec: the AuthorIndex. -/
def authorIndexOf (docs : List Document) (author : String) : List Document :=
  (masterSeq docs).filter (fun d => d.author = author)

/-- First value occurring at least twice in a list, scanning left to
right; `none` exactly when the list has no duplicates. -/
def firstDup : List String → Option String
  | [] => none
  | s :: rest => if rest.contains s then some s else firstDup rest

/-! ### Build Orchestrator -/

/-- Modelled from the spec: the content fingerprint — a hash of the raw
input bytes, reduced modulo a 64-bit word. -/
def fingerprint (bytes : List Nat) : Nat :=
  bytes.foldl (fun h b => (h * 16777619 + b) % 2 ^ 64) 2166136261

/-- A fingerprint-cache entry: the stored fingerprint together with the
prior build's parsed document and resolved tree for that slug. -/
structure CacheEntry where
  fingerprint : Nat
  doc : Document
  tree : List Fragment
  deriving DecidableEq, Repr

/-- Look up a slug in the fingerprint cache. -/
def lookupCache (cache : List (String × CacheEntry)) (slug : String) :
    Option CacheEntry :=
  match cache with
  | [] => none
  | (s, e) :: rest => if s = slug then some e else lookupCache rest slug

/-- Full processing of one raw unit: Document Parser, then Render
Resolver; per-document failures surface as `Except.error`. -/
def docOutcome (reg : Registry) (u : RawUnit) :
    Except BuildError (Document × List Fragment) :=
  match parseDocument u with
  | .error e => .error e
  | .ok d =>
    match resolveBody reg u.body with
    | .error e => .error e
    | .ok t => .ok (d, t)

/-- Successfully processed units, in input order. -/
def okEntries (reg : Registry) (units : List RawUnit) :
    List (Document × List Fragment) :=
  units.filterMap (fun u => (docOutcome reg u).toOption)

/-- Per-document errors collected into the build report, keyed by the
failing unit's slug. -/
def errEntries (reg : Registry) (units : List RawUnit) :
    List (String × BuildError) :=
  units.filterMap (fun u =>
    match docOutcome reg u with
    | .error e => some (slugOfUnit u, e)
    | .ok _ => none)

/-- The final output of one build: manifest, error report, master
sequence, and the fingerprint cache for the next incremental build. -/
structure BuildResult where
  manifest : List (String × List Fragment)
  report : List (String × BuildError)
  master : List Document
  cache : List (String × CacheEntry)
  deriving DecidableEq, Repr

/-- Modelled from the spec: the Build Orchestrator for a full (cold)
build.  Per-document failures are recorded and the document excluded;
a duplicate computed slug across the whole set aborts the entire build
with `DuplicateSlug` and no manifest. -/
def buildAll (reg : Registry) (units : List RawUnit) :
    Except BuildError BuildResult :=
  let oks := okEntries reg units
  match firstDup (oks.map (fun p => p.1.slug)) with
  | some s => .error (.duplicateSlug s)
  | none =>
    .ok { manifest := oks.map (fun p => (p.1.slug, p.2)),
          report := errEntries reg units,
          master := masterSeq (oks.map (fun p => p.1)),
          cache := units.filterMap (fun u =>
            (docOutcome reg u).toOption.map (fun p =>
              (p.1.slug,
               CacheEntry.mk (fingerprint u.bytes) p.1 p.2))) }

/-- Whether a rebuilt entry came from the cache or was recomputed. -/
inductive EntryOrigin where
  | reused
  | recomputed
  deriving DecidableEq, Repr

/-- Modelled from the spec: the incremental step of the Build
Orchestrator for one unit — the cached entry is reused exactly when its
stored fingerprint equals the current content fingerprint of the unit's
raw bytes; any mismatch (or missing entry) forces full re-resolution. -/
def processUnit (reg : Registry) (cache : List (String × CacheEntry))
    (u : RawUnit) :
    EntryOrigin × Except BuildError (Document × List Fragment) :=
  match lookupCache cache (slugOfUnit u) with
  | some e =>
    if e.fingerprint = fingerprint u.bytes then (.reused, .ok (e.doc, e.tree))
    else (.recomputed, docOutcome reg u)
  | none => (.recomputed, docOutcome reg u)

/-- Per-unit origins and outcomes of an incremental rebuild, in input
order. -/
def rebuildOutcomes (reg : Registry) (cache : List (String × CacheEntry))
    (units : List RawUnit) :
    List (RawUnit × EntryOrigin ×
      Except BuildError (Document × List Fragment)) :=
  units.map (fun u => (u, processUnit reg cache u))

/-- Successfully processed units of an incremental rebuild. -/
def rebuildOkEntries (reg : Registry) (cache : List (String × CacheEntry))
    (units : List RawUnit) : List (Document × List Fragment) :=
  units.filterMap (fun u => ((processUnit reg cache u).2).toOption)

/-- Modelled from the spec: an incremental rebuild.  Unchanged documents
reuse their cached entries; the global indices (master sequence) are
always recomputed from the whole current document set. -/
def rebuild (reg : Registry) (cache : List (String × CacheEntry))
    (units : List RawUnit) : Except BuildError BuildResult :=
  let oks := rebuildOkEntries reg cache units
  match firstDup (oks.map (fun p => p.1.slug)) with
  | some s => .error (.duplicateSlug s)
  | none =>
    .ok { manifest := oks.map (fun p => (p.1.slug, p.2)),
          report := units.filterMap (fun u =>
            match (processUnit reg cache u).2 with
            | .error e => some (slugOfUnit u, e)
            | .ok _ => none),
          master := masterSeq (oks.map (fun p => p.1)),
          cache := units.filterMap (fun u =>
            ((processUnit reg cache u).2).toOption.map (fun p =>
              (p.1.slug,
               CacheEntry.mk (fingerprint u.bytes) p.1 p.2))) }

/-! ### Concrete artifacts embedded from the source files -/

/-- Embedded from `src/components/svgs/beta/CloudIcon.tsx`: the fixed
48×48 SVG vector shape the component returns on every invocation. -/
def CloudIcon : Svg :=
  { width := 48, height := 48, viewBox := "0 0 48 48", fill := "none",
    pathData := "M22.5 43.7496L7.5 35.0996C7.025 34.8187 6.65625 34.4485 6.39375 33.989C6.13125 33.5294 6 33.0329 6 32.4996V15.4996C6 14.9663 6.13125 14.4698 6.39375 14.0103C6.65625 13.5507 7.025 13.1805 7.5 12.8996L22.5 4.24961C22.9776 3.98294 23.4803 3.84961 24.0082 3.84961C24.5361 3.84961 25.0333 3.98294 25.5 4.24961L40.5 12.8996C40.975 13.1805 41.3438 13.5507 41.6063 14.0103C41.8688 14.4698 42 14.9663 42 15.4996V32.4996C42 33.0329 41.8688 33.5294 41.6063 33.989C41.3438 34.4485 40.975 34.8187 40.5 35.0996L25.5 43.7496C25.0224 44.0163 24.5197 44.1496 23.9918 44.1496C23.4639 44.1496 22.9667 44.0163 22.5 43.7496ZM22.5 24.8496V40.2996L24 41.1496L25.5 40.2996V24.8415L39 16.9996V15.4996L37.3 14.5496L24 22.2996L10.65 14.5496L9 15.4825V17.0496L22.5 24.8496Z" }

/-- Embedded from `src/_launchpad/2023-28-08-issue-07-more-CRUD.mdx`:
path and frontmatter (title, date, description — the header carries no
author field). -/
def launchpadUnit : RawUnit :=
  { path := "_launchpad/2023-28-08-issue-07-more-CRUD.mdx",
    header :=
      { title := some "Issue #7: A little more CRUD",
        date := some "2023-08-28T16:00:00",
        description := some "Learn more about databases in Rust by writing a CRUD application. This is part 2." },
    body := [.text "# Shuttle Launchpad #7: A little more CRUD"],
    bytes := [] }

/-- Embedded from `src/_blog/2025-03-19-pricing-update.mdx`: path and
frontmatter. -/
def pricingUnit : RawUnit :=
  { path := "_blog/2025-03-19-pricing-update.mdx",
    header :=
      { title := some "Introducing New Shuttle Pricing: Simple and Production-Ready",
        date := some "2025-03-19T14:30:00",
        author := some "shuttle",
        tags := ["shuttle"],
        description := some "Following the launch of our new platform late last year, we're updating our pricing structure",
        thumb := some "pricing-update-thumb.png",
        cover := some "pricing-update-thumb.png" },
    body := [.text "Following the launch of our new platform late last year, we're updating our pricing structure to better reflect our evolution into a production-ready platform that developers can rely on for their most critical services."],
    bytes := [] }

/-- Embedded from `src/_blog/2024-02-29-fullstack-loco-rust.mdx`: path
and frontmatter (note the leap-day header date `2024-02-29`). -/
def locoUnit : RawUnit :=
  { path := "_blog/2024-02-29-fullstack-loco-rust.mdx",
    header :=
      { title := some "A Full Stack SaaS Template with Loco",
        date := some "2024-02-29T15:30:00",
        author := some "josh",
        tags := ["rust", "fullstack", "loco", "guide"],
        description := some "Exploring how to use the Loco.rs framework to write a SaaS, complete with payments.",
        thumb := some "fullstack-loco-rust-thumb.png",
        cover := some "fullstack-loco-rust-thumb.png" },
    body := [.text "Loco is a Rust framework that aims to do it all - authentication, tasks, migrations and more."],
    bytes := [] }

/-- Embedded from `src/_blog/2024-04-29-building-your-first-ai-tool-rust.mdx`:
path and frontmatter. -/
def aiToolUnit : RawUnit :=
  { path := "_blog/2024-04-29-building-your-first-ai-tool-rust.mdx",
    header :=
      { title := some "Building your first AI tool in Rust",
        date := some "2024-04-29T14:30:00",
        author := some "ivan",
        tags := ["rust", "ai", "guide"],
        description := some "Writing a simple AI helper with Rust using llm-chain",
        thumb := some "building-your-first-ai-tool-rust-thumb.png",
        cover := some "building-your-first-ai-tool-rust-thumb.png" },
    body := [.text "In this tutorial, we'll build a command-line application in Rust that can analyze data from a CSV file."],
    bytes := [] }

/-- Example document of the spec (§8): dated 2023-06-16, no tag overlap
with the other example document. -/
def docJun16 : Document :=
  { slug := "2023-06-16-example", title := "June example",
    author := "josh",
    date := { year := 2023, month := 6, day := 16, hour := 12,
              minute := 0, second := 0 },
    tags := ["alpha"], description := none, thumb := none, cover := none,
    body := [] }

/-- Example document of the spec (§8): dated 2023-08-28. -/
def docAug28 : Document :=
  { slug := "2023-08-28-example", title := "August example",
    author := "ivan",
    date := { year := 2023, month := 8, day := 28, hour := 16,
              minute := 0, second := 0 },
    tags := ["beta"], description := none, thumb := none, cover := none,
    body := [] }

/-- A cache entry for the pricing unit as a cold build of it would store
it: current fingerprint, parsed document, resolved tree. -/
def pricingCacheEntry : CacheEntry :=
  { fingerprint := fingerprint pricingUnit.bytes,
    doc :=
      { slug := "2025-03-19-pricing-update",
        title := "Introducing New Shuttle Pricing: Simple and Production-Ready",
        author := "shuttle",
        date := { year := 2025, month := 3, day := 19, hour := 14,
                  minute := 30, second := 0 },
        tags := ["shuttle"],
        description := some "Following the launch of our new platform late last year, we're updating our pricing structure",
        thumb := some "pricing-update-thumb.png",
        cover := some "pricing-update-thumb.png",
        body := pricingUnit.body },
    tree := [.text "Following the launch of our new platform late last year, we're updating our pricing structure to better reflect our evolution into a production-ready platform that developers can rely on for their most critical services."] }

/-! ### Helper lemmas -/

/-- Names registered in a registry, in registration order. -/
def namesOf (reg : Registry) : List String :=
  reg.map Prod.fst

theorem lookupReg_isSome_iff (reg : Registry) (n : String) :
    (lookupReg reg n).isSome = true ↔ n ∈ namesOf reg := by
  induction reg with
  | nil => simp [lookupReg, namesOf]
  | cons p rest ih =>
    obtain ⟨m, r⟩ := p
    simp only [namesOf, List.map_cons, List.mem_cons]
    by_cases h : m = n
    · simp [lookupReg, h]
    · simp only [lookupReg, h, if_false]
      rw [ih]
      simp only [namesOf]
      constructor
      · exact Or.inr
      · rintro (rfl | hmem)
        · exact absurd rfl h
        · exact hmem

theorem lookupReg_eq_none_iff (reg : Registry) (n : String) :
    lookupReg reg n = none ↔ n ∉ namesOf reg := by
  rw [← lookupReg_isSome_iff]
  cases lookupReg reg n <;> simp

theorem firstDup_eq_none_iff (l : List String) :
    firstDup l = none ↔ l.Nodup := by
  induction l with
  | nil => simp [firstDup]
  | cons s rest ih =>
    by_cases h : rest.contains s
    · simp only [firstDup, h, if_true]
      rw [List.elem_iff] at h
      simp [h]
    · simp only [firstDup, h, if_false]
      rw [List.elem_iff] at h
      simp [ih, h]

theorem resolveBody_ok_forall₂ (reg : Registry) :
    ∀ (body : List BodyNode) (fs : List Fragment),
      resolveBody reg body = .ok fs →
      List.Forall₂ (fun nd fr => fragOfNode reg nd = some fr) body fs := by
  intro body
  induction body with
  | nil =>
    intro fs h
    simp only [resolveBody] at h
    cases h
    exact List.Forall₂.nil
  | cons nd rest ih =>
    intro fs h
    cases nd with
    | text s =>
      simp only [resolveBody] at h
      cases hr : resolveBody reg rest with
      | error e => rw [hr] at h; cases h
      | ok fs0 =>
        rw [hr] at h
        cases h
        exact List.Forall₂.cons rfl (ih fs0 hr)
    | componentRef n =>
      simp only [resolveBody] at h
      cases hl : lookupReg reg n with
      | none => rw [hl] at h; cases h
      | some r =>
        rw [hl] at h
        cases hr : resolveBody reg rest with
        | error e => rw [hr] at h; cases h
        | ok fs0 =>
          rw [hr] at h
          cases h
          exact List.Forall₂.cons (by simp [fragOfNode, hl]) (ih fs0 hr)

theorem resolveBody_unknown_of_absent (reg : Registry) :
    ∀ (body : List BodyNode) (n : String),
      BodyNode.componentRef n ∈ body → lookupReg reg n = none →
      ∃ m, lookupReg reg m = none ∧
        resolveBody reg body = .error (.unknownComponent m) := by
  intro body
  induction body with
  | nil => intro n hn _; cases hn
  | cons nd rest ih =>
    intro n hn habs
    cases nd with
    | text s =>
      have hmem : BodyNode.componentRef n ∈ rest := by
        rcases List.mem_cons.mp hn with h | h
        · cases h
        · exact h
      obtain ⟨m, hm, hres⟩ := ih n hmem habs
      exact ⟨m, hm, by simp [resolveBody, hres]⟩
    | componentRef k =>
      cases hl : lookupReg reg k with
      | none => exact ⟨k, hl, by simp [resolveBody, hl]⟩
      | some r =>
        have hmem : BodyNode.componentRef n ∈ rest := by
          rcases List.mem_cons.mp hn with h | h
          · cases h; rw [hl] at habs; cases habs
          · exact h
        obtain ⟨m, hm, hres⟩ := ih n hmem habs
        exact ⟨m, hm, by simp [resolveBody, hl, hres]⟩

theorem okEntries_append (reg : Registry) (l₁ l₂ : List RawUnit) :
    okEntries reg (l₁ ++ l₂) = okEntries reg l₁ ++ okEntries reg l₂ :=
  List.filterMap_append ..

theorem okEntries_cons_error (reg : Registry) (u : RawUnit)
    (l : List RawUnit) (e : BuildError) (h : docOutcome reg u = .error e) :
    okEntries reg (u :: l) = okEntries reg l := by
  simp [okEntries, List.filterMap_cons, h, Except.toOption]

theorem okEntries_cons_ok (reg : Registry) (u : RawUnit)
    (l : List RawUnit) (p : Document × List Fragment)
    (h : docOutcome reg u = .ok p) :
    okEntries reg (u :: l) = p :: okEntries reg l := by
  simp [okEntries, List.filterMap_cons, h, Except.toOption]

theorem errEntries_append (reg : Registry) (l₁ l₂ : List RawUnit) :
    errEntries reg (l₁ ++ l₂) = errEntries reg l₁ ++ errEntries reg l₂ :=
  List.filterMap_append ..

theorem errEntries_cons_error (reg : Registry) (u : RawUnit)
    (l : List RawUnit) (e : BuildError) (h : docOutcome reg u = .error e) :
    errEntries reg (u :: l) = (slugOfUnit u, e) :: errEntries reg l := by
  simp [errEntries, List.filterMap_cons, h]

theorem errEntries_cons_ok (reg : Registry) (u : RawUnit)
    (l : List RawUnit) (p : Document × List Fragment)
    (h : docOutcome reg u = .ok p) :
    errEntries reg (u :: l) = errEntries reg l := by
  simp [errEntries, List.filterMap_cons, h]

theorem mem_okEntries (reg : Registry) (units : List RawUnit) (u : RawUnit)
    (p : Document × List Fragment) (hu : u ∈ units)
    (h : docOutcome reg u = .ok p) : p ∈ okEntries reg units :=
  List.mem_filterMap.mpr ⟨u, hu, by simp [h, Except.toOption]⟩

theorem parse_of_missingRequired (u : RawUnit) (f : String)
    (hm : missingRequired u.header = some f) :
    parseDocument u = .error (.malformedContent f) := by
  obtain ⟨path, header, body, bytes⟩ := u
  obtain ⟨title, date, author, slug, description, tags, thumb, cover⟩ := header
  cases title with
  | none =>
    simp [missingRequired] at hm
    simp [parseDocument, hm.symm]
  | some t =>
    cases date with
    | none =>
      simp [missingRequired] at hm
      simp [parseDocument, hm.symm]
    | some ds =>
      cases hp : parseDateTime ds with
      | none =>
        simp [missingRequired, hp] at hm
        simp [parseDocument, hp, hm.symm]
      | some dt =>
        cases author with
        | none =>
          simp [missingRequired, hp] at hm
          simp [parseDocument, hp, hm.symm]
        | some a =>
          by_cases ha : a = ""
          · simp [missingRequired, hp, ha] at hm
            simp [parseDocument, hp, ha, hm.symm]
          · simp [missingRequired, hp, ha] at hm

theorem parseDocument_path_update (u : RawUnit) (p : String) :
    parseDocument { u with path := p } =
      (parseDocument u).map
        (fun d => { d with slug := slugOfUnit { u with path := p } }) := by
  obtain ⟨path, header, body, bytes⟩ := u
  obtain ⟨title, date, author, slug, description, tags, thumb, cover⟩ := header
  cases title with
  | none => rfl
  | some t =>
    cases date with
    | none => rfl
    | some ds =>
      cases hp : parseDateTime ds with
      | none => simp [parseDocument, hp, Except.map]
      | some dt =>
        cases author with
        | none => simp [parseDocument, hp, Except.map]
        | some a =>
          by_cases ha : a = ""
          · simp [parseDocument, hp, ha, Except.map]
          · simp [parseDocument, hp, ha, Except.map]

theorem namesOf_append (reg : Registry) (l : List (String × Renderer)) :
    namesOf (reg ++ l) = namesOf reg ++ namesOf l := by
  simp [namesOf]

theorem register_ok (reg : Registry) (n : String) (r : Renderer)
    (h : lookupReg reg n = none) :
    register reg n r = .ok (reg ++ [(n, r)]) := by
  simp [register, h]

theorem register_dup (reg : Registry) (n : String) (r r0 : Renderer)
    (h : lookupReg reg n = some r0) :
    register reg n r = .error (.duplicateComponent n) := by
  simp [register, h]

theorem registerAll_from (inits : List (String × Renderer)) :
    ∀ reg : Registry,
      (∃ reg', inits.foldlM (fun reg p => register reg p.1 p.2) reg = .ok reg') ↔
      ((inits.map Prod.fst).Nodup ∧ ∀ p ∈ inits, p.1 ∉ namesOf reg) := by
  induction inits with
  | nil =>
    intro reg
    constructor
    · intro _
      exact ⟨List.nodup_nil, fun p hp => absurd hp (List.not_mem_nil p)⟩
    · intro _
      exact ⟨reg, rfl⟩
  | cons q rest ih =>
    intro reg
    obtain ⟨n, r⟩ := q
    rw [List.foldlM_cons]
    cases hl : lookupReg reg n with
    | some r0 =>
      have hn : n ∈ namesOf reg := by
        rw [← lookupReg_isSome_iff, hl]
        rfl
      constructor
      · rintro ⟨reg', hreg'⟩
        rw [register_dup reg n r r0 hl] at hreg'
        cases hreg'
      · rintro ⟨-, hall⟩
        exact absurd hn (by simpa using hall (n, r) (List.mem_cons_self _ _))
    | none =>
      have hn : n ∉ namesOf reg := (lookupReg_eq_none_iff reg n).mp hl
      rw [register_ok reg n r hl]
      have hbind :
          (Except.ok (reg ++ [(n, r)]) >>= fun b =>
            rest.foldlM (fun reg p => register reg p.1 p.2) b) =
          rest.foldlM (fun reg p => register reg p.1 p.2) (reg ++ [(n, r)]) := rfl
      rw [hbind, ih (reg ++ [(n, r)])]
      rw [namesOf_append]
      constructor
      · rintro ⟨hnd, hall⟩
        refine ⟨List.nodup_cons.mpr ⟨?_, hnd⟩, ?_⟩
        · intro hmem
          obtain ⟨p, hp, hpn⟩ := List.mem_map.mp hmem
          have := hall p hp
          simp [namesOf, hpn] at this
        · intro p hp
          rcases List.mem_cons.mp hp with rfl | hp'
          · exact hn
          · intro hmem
            exact (by simpa [namesOf] using hall p hp' : p.1 ∉ namesOf reg ∧ p.1 ≠ n).1 hmem
      · rintro ⟨hnd, hall⟩
        obtain ⟨hnotin, hnd'⟩ := List.nodup_cons.mp hnd
        refine ⟨hnd', fun p hp => ?_⟩
        simp only [namesOf, List.map_cons, List.map_nil, List.mem_append,
          List.mem_singleton]
        rintro (hmem | rfl)
        · exact hall p (List.mem_cons_of_mem _ hp) hmem
        · exact hnotin (List.mem_map.mpr ⟨p, hp, rfl⟩)

theorem rebuildOutcomes_append (reg : Registry)
    (cache : List (String × CacheEntry)) (l₁ l₂ : List RawUnit) :
    rebuildOutcomes reg cache (l₁ ++ l₂) =
      rebuildOutcomes reg cache l₁ ++ rebuildOutcomes reg cache l₂ :=
  List.map_append ..

theorem buildAll_eq_of_nodup (reg : Registry) (units : List RawUnit)
    (h : firstDup ((okEntries reg units).map fun p => p.1.slug) = none) :
    buildAll reg units = .ok
      { manifest := (okEntries reg units).map fun p => (p.1.slug, p.2),
        report := errEntries reg units,
        master := masterSeq ((okEntries reg units).map fun p => p.1),
        cache := units.filterMap fun u =>
          (docOutcome reg u).toOption.map fun p =>
            (p.1.slug, CacheEntry.mk (fingerprint u.bytes) p.1 p.2) } := by
  simp only [buildAll, h]

theorem buildAll_eq_of_dup (reg : Registry) (units : List RawUnit)
    (s : String)
    (h : firstDup ((okEntries reg units).map fun p => p.1.slug) = some s) :
    buildAll reg units = .error (.duplicateSlug s) := by
  simp only [buildAll, h]

theorem buildAll_ok_inv (reg : Registry) (units : List RawUnit)
    (res : BuildResult) (h : buildAll reg units = .ok res) :
    firstDup ((okEntries reg units).map fun p => p.1.slug) = none ∧
    res.manifest = (okEntries reg units).map (fun p => (p.1.slug, p.2)) ∧
    res.report = errEntries reg units ∧
    res.master = masterSeq ((okEntries reg units).map fun p => p.1) := by
  cases hdup : firstDup ((okEntries reg units).map fun p => p.1.slug) with
  | some s =>
    rw [buildAll_eq_of_dup reg units s hdup] at h
    cases h
  | none =>
    rw [buildAll_eq_of_nodup reg units hdup] at h
    cases h
    exact ⟨rfl, rfl, rfl, rfl⟩

theorem rebuild_ok_master (reg : Registry)
    (cache : List (String × CacheEntry)) (units : List RawUnit)
    (res : BuildResult) (h : rebuild reg cache units = .ok res) :
    res.master =
      masterSeq ((rebuildOkEntries reg cache units).map fun p => p.1) := by
  cases hdup :
      firstDup ((rebuildOkEntries reg cache units).map fun p => p.1.slug) with
  | some s =>
    simp only [rebuild, hdup] at h
    cases h
  | none =>
    simp only [rebuild, hdup] at h
    cases h
    rfl

theorem processUnit_reused_iff (reg : Registry)
    (cache : List (String × CacheEntry)) (u : RawUnit) (e : CacheEntry)
    (h : lookupCache cache (slugOfUnit u) = some e) :
    (processUnit reg cache u).1 = .reused ↔
      e.fingerprint = fingerprint u.bytes := by
  simp only [processUnit, h]
  by_cases hf : e.fingerprint = fingerprint u.bytes <;> simp [hf]

/-! ### Claim theorems -/

/-- C8: `register(name, renderer)` fails with `DuplicateComponent` exactly
when the name is already present in the Component Registry, and
`resolve(name)` fails with `UnknownComponent` exactly when the name is
absent (and returns exactly the registered renderer otherwise); the
registry is populated exactly once at startup — populating it from the
startup list succeeds precisely when the listed names are pairwise
distinct — and, resolution being a pure function of the registry value,
resolve answers are stable throughout rendering. -/
theorem registry_register_resolve_spec (inits : List (String × Renderer))
    (reg : Registry) (n : String) (r : Renderer) :
    (register reg n r = .error (.duplicateComponent n) ↔ n ∈ namesOf reg) ∧
    (resolveComponent reg n = .error (.unknownComponent n) ↔
      n ∉ namesOf reg) ∧
    (∀ rr, resolveComponent reg n = .ok rr ↔ lookupReg reg n = some rr) ∧
    ((∃ reg', registerAll inits = .ok reg') ↔
      (inits.map Prod.fst).Nodup) := by
  refine ⟨?_, ?_, ?_, ?_⟩
  · cases hl : lookupReg reg n with
    | some r0 =>
      have hn : n ∈ namesOf reg := by
        rw [← lookupReg_isSome_iff, hl]; rfl
      simp [register_dup reg n r r0 hl, hn]
    | none =>
      have hn := (lookupReg_eq_none_iff reg n).mp hl
      simp [register_ok reg n r hl, hn]
  · cases hl : lookupReg reg n with
    | some r0 =>
      have hn : n ∈ namesOf reg := by
        rw [← lookupReg_isSome_iff, hl]; rfl
      simp [resolveComponent, hl, hn]
    | none =>
      have hn := (lookupReg_eq_none_iff reg n).mp hl
      simp [resolveComponent, hl, hn]
  · intro rr
    cases hl : lookupReg reg n with
    | some r0 => simp [resolveComponent, hl]
    | none => simp [resolveComponent, hl]
  · rw [show registerAll inits =
        inits.foldlM (fun reg p => register reg p.1 p.2) [] from rfl,
      registerAll_from inits []]
    simp [namesOf]

/-- C9: the CloudIcon component (the one component the repository
defines) is a zero-parameter presentational unit rendering one fixed
48×48 SVG vector shape: every invocation — any position in any document
body, under any registry binding its name — emits the very same
artifact, independent of document or build state. -/
theorem cloudIcon_fixed_artifact (reg : Registry) (rest : List BodyNode)
    (h : lookupReg reg "CloudIcon" = some CloudIcon) :
    CloudIcon.width = 48 ∧ CloudIcon.height = 48 ∧
    CloudIcon.viewBox = "0 0 48 48" ∧
    resolveComponent reg "CloudIcon" = .ok CloudIcon ∧
    resolveBody reg (.componentRef "CloudIcon" :: rest) =
      (resolveBody reg rest).map
        (fun fs => .rendered "CloudIcon" CloudIcon :: fs) := by
  refine ⟨rfl, rfl, rfl, ?_, ?_⟩
  · simp [resolveComponent, h]
  · simp only [resolveBody, h]
    cases resolveBody reg rest <;> simp [Except.map]

/-- C9 witness: the singleton registry binding "CloudIcon" satisfies the
hypothesis, and the theorem evaluates at it. -/
theorem cloudIcon_fixed_artifact_witness :
    CloudIcon.width = 48 ∧ CloudIcon.height = 48 ∧
    CloudIcon.viewBox = "0 0 48 48" ∧
    resolveComponent [("CloudIcon", CloudIcon)] "CloudIcon" =
      .ok CloudIcon ∧
    resolveBody [("CloudIcon", CloudIcon)]
        (.componentRef "CloudIcon" :: []) =
      (resolveBody [("CloudIcon", CloudIcon)] []).map
        (fun fs => .rendered "CloudIcon" CloudIcon :: fs) :=
  cloudIcon_fixed_artifact [("CloudIcon", CloudIcon)] [] rfl

/-- C7: the resolved render tree preserves exactly the original order of
the body's nodes — the fragments correspond one-to-one, in order, to the
body's text and component-reference nodes (so nothing is reordered,
dropped or inserted). -/
theorem render_preserves_body_order (reg : Registry) (body : List BodyNode)
    (fs : List Fragment) (h : resolveBody reg body = .ok fs) :
    fs.length = body.length ∧
    List.Forall₂ (fun nd fr => fragOfNode reg nd = some fr) body fs := by
  have hf := resolveBody_ok_forall₂ reg body fs h
  exact ⟨hf.length_eq.symm, hf⟩

/-- C7 witness: a three-node body resolves to three fragments in source
order. -/
theorem render_preserves_body_order_witness :
    ([Fragment.text "intro", Fragment.rendered "CloudIcon" CloudIcon,
        Fragment.text "outro"].length =
      [BodyNode.text "intro", BodyNode.componentRef "CloudIcon",
        BodyNode.text "outro"].length) ∧
    List.Forall₂
      (fun nd fr => fragOfNode [("CloudIcon", CloudIcon)] nd = some fr)
      [BodyNode.text "intro", BodyNode.componentRef "CloudIcon",
        BodyNode.text "outro"]
      [Fragment.text "intro", Fragment.rendered "CloudIcon" CloudIcon,
        Fragment.text "outro"] :=
  render_preserves_body_order [("CloudIcon", CloudIcon)]
    [BodyNode.text "intro", BodyNode.componentRef "CloudIcon",
      BodyNode.text "outro"]
    [Fragment.text "intro", Fragment.rendered "CloudIcon" CloudIcon,
      Fragment.text "outro"] rfl

/-- C6: the Render Resolver is a pure, deterministic function of
(body, registry): two resolutions of the same pair yield the same tree,
hence byte-identical serializations, and the tree the build pipeline
emits for a unit with that body is that very tree — no hidden state or
cache influences it. -/
theorem render_resolver_deterministic (reg : Registry)
    (body : List BodyNode) (t₁ t₂ : List Fragment)
    (h₁ : resolveBody reg body = .ok t₁)
    (h₂ : resolveBody reg body = .ok t₂) :
    t₁ = t₂ ∧ renderTreeBytes t₁ = renderTreeBytes t₂ ∧
    ∀ (u : RawUnit) (d : Document) (t : List Fragment),
      u.body = body → docOutcome reg u = .ok (d, t) → t = t₁ := by
  have ht : t₁ = t₂ := by
    rw [h₁] at h₂
    cases h₂
    rfl
  refine ⟨ht, by rw [ht], ?_⟩
  intro u d t hb hdo
  simp only [docOutcome] at hdo
  cases hp : parseDocument u with
  | error e => rw [hp] at hdo; cases hdo
  | ok d0 =>
    rw [hp, hb, h₁] at hdo
    cases hdo
    rfl

/-- C6 witness: resolving a concrete one-node body twice under the
singleton registry gives the same tree both times. -/
theorem render_resolver_deterministic_witness :
    [Fragment.text "hello"] = [Fragment.text "hello"] ∧
    renderTreeBytes [Fragment.text "hello"] =
      renderTreeBytes [Fragment.text "hello"] ∧
    ∀ (u : RawUnit) (d : Document) (t : List Fragment),
      u.body = [BodyNode.text "hello"] →
      docOutcome [("CloudIcon", CloudIcon)] u = .ok (d, t) →
      t = [Fragment.text "hello"] :=
  render_resolver_deterministic [("CloudIcon", CloudIcon)]
    [BodyNode.text "hello"] [Fragment.text "hello"]
    [Fragment.text "hello"] rfl rfl

/-- C1: a raw unit whose header is missing a required field (title,
valid publish date-time, or non-empty author) fails parsing with
`MalformedContent` naming that field; in a build it contributes exactly
one error entry for its slug, every other successfully processed unit
still reaches the manifest, and the build over the remaining units
produces the same manifest and master sequence — only that document is
excluded. -/
theorem parser_missing_field_excludes_only_that_document (reg : Registry)
    (pre post : List RawUnit) (u : RawUnit) (f : String)
    (hm : missingRequired u.header = some f) :
    parseDocument u = .error (.malformedContent f) ∧
    errEntries reg (pre ++ u :: post) =
      errEntries reg pre ++
        (slugOfUnit u, BuildError.malformedContent f) ::
          errEntries reg post ∧
    (∀ res, buildAll reg (pre ++ u :: post) = .ok res →
      ((slugOfUnit u, BuildError.malformedContent f) ∈ res.report ∧
       ∀ v ∈ pre ++ post, ∀ p : Document × List Fragment,
         docOutcome reg v = .ok p → (p.1.slug, p.2) ∈ res.manifest)) ∧
    (∀ res', buildAll reg (pre ++ post) = .ok res' →
      ∃ res, buildAll reg (pre ++ u :: post) = .ok res ∧
        res.manifest = res'.manifest ∧ res.master = res'.master) := by
  have hparse := parse_of_missingRequired u f hm
  have hdo : docOutcome reg u = .error (.malformedContent f) := by
    simp [docOutcome, hparse]
  have hok : okEntries reg (pre ++ u :: post) = okEntries reg (pre ++ post) := by
    rw [okEntries_append, okEntries_cons_error reg u post _ hdo,
      ← okEntries_append]
  have herr : errEntries reg (pre ++ u :: post) =
      errEntries reg pre ++
        (slugOfUnit u, BuildError.malformedContent f) ::
          errEntries reg post := by
    rw [errEntries_append, errEntries_cons_error reg u post _ hdo]
  refine ⟨hparse, herr, ?_, ?_⟩
  · intro res hres
    obtain ⟨-, hman, hrep, -⟩ := buildAll_ok_inv reg _ res hres
    constructor
    · rw [hrep, herr]
      exact List.mem_append_right _ (List.mem_cons_self _ _)
    · intro v hv p hp
      have hv' : v ∈ pre ++ u :: post := by
        rcases List.mem_append.mp hv with h | h
        · exact List.mem_append_left _ h
        · exact List.mem_append_right _ (List.mem_cons_of_mem _ h)
      have hmem := mem_okEntries reg (pre ++ u :: post) v p hv' hp
      rw [hman]
      exact List.mem_map.mpr ⟨p, hmem, rfl⟩
  · intro res' hres'
    obtain ⟨hdup', hman', -, hmas'⟩ := buildAll_ok_inv reg _ res' hres'
    have hdup : firstDup ((okEntries reg (pre ++ u :: post)).map
        fun p => p.1.slug) = none := by
      rw [hok]
      exact hdup'
    refine ⟨_, buildAll_eq_of_nodup reg _ hdup, ?_, ?_⟩
    · rw [hman', hok]
    · rw [hmas', hok]

/-- C1 witness: with the singleton registry, a unit lacking an author
between two complete units is the only one excluded. -/
theorem parser_missing_field_excludes_only_that_document_witness :
    missingRequired launchpadUnit.header = some "author" ∧
    (parseDocument launchpadUnit =
        .error (.malformedContent "author") ∧
      errEntries [("CloudIcon", CloudIcon)]
          ([pricingUnit] ++ launchpadUnit :: [locoUnit]) =
        errEntries [("CloudIcon", CloudIcon)] [pricingUnit] ++
          (slugOfUnit launchpadUnit,
            BuildError.malformedContent "author") ::
            errEntries [("CloudIcon", CloudIcon)] [locoUnit] ∧
      (∀ res, buildAll [("CloudIcon", CloudIcon)]
          ([pricingUnit] ++ launchpadUnit :: [locoUnit]) = .ok res →
        ((slugOfUnit launchpadUnit,
            BuildError.malformedContent "author") ∈ res.report ∧
         ∀ v ∈ [pricingUnit] ++ [locoUnit],
           ∀ p : Document × List Fragment,
             docOutcome [("CloudIcon", CloudIcon)] v = .ok p →
             (p.1.slug, p.2) ∈ res.manifest)) ∧
      (∀ res', buildAll [("CloudIcon", CloudIcon)]
          ([pricingUnit] ++ [locoUnit]) = .ok res' →
        ∃ res, buildAll [("CloudIcon", CloudIcon)]
            ([pricingUnit] ++ launchpadUnit :: [locoUnit]) = .ok res ∧
          res.manifest = res'.manifest ∧ res.master = res'.master)) :=
  ⟨rfl,
   parser_missing_field_excludes_only_that_document
     [("CloudIcon", CloudIcon)] [pricingUnit] [locoUnit]
     launchpadUnit "author" rfl⟩

/-- C2: a document whose body references a component name absent from
the registry fails resolution as a whole with `UnknownComponent` (the
error names an absent component; no render tree, hence no partial one,
is ever produced for it), the build report holds exactly one error entry
for that document's slug, and every other document builds normally into
the manifest. -/
theorem unknown_component_fails_document_atomically (reg : Registry)
    (pre post : List RawUnit) (u : RawUnit) (n : String) (d : Document)
    (hn : BodyNode.componentRef n ∈ u.body)
    (habs : lookupReg reg n = none)
    (hp : parseDocument u = .ok d)
    (hok : ∀ v ∈ pre ++ post, ∃ p : Document × List Fragment,
      docOutcome reg v = .ok p)
    (hnodup : ((okEntries reg (pre ++ post)).map fun p => p.1.slug).Nodup) :
    ∃ m, lookupReg reg m = none ∧
      resolveBody reg u.body = .error (.unknownComponent m) ∧
      docOutcome reg u = .error (.unknownComponent m) ∧
      (∀ p : Document × List Fragment, docOutcome reg u ≠ .ok p) ∧
      ∃ res, buildAll reg (pre ++ u :: post) = .ok res ∧
        res.report = [(slugOfUnit u, BuildError.unknownComponent m)] ∧
        ∀ v ∈ pre ++ post, ∀ p : Document × List Fragment,
          docOutcome reg v = .ok p → (p.1.slug, p.2) ∈ res.manifest := by
  obtain ⟨m, hm, hres⟩ := resolveBody_unknown_of_absent reg u.body n hn habs
  have hdo : docOutcome reg u = .error (.unknownComponent m) := by
    simp [docOutcome, hp, hres]
  have hokeq : okEntries reg (pre ++ u :: post) =
      okEntries reg (pre ++ post) := by
    rw [okEntries_append, okEntries_cons_error reg u post _ hdo,
      ← okEntries_append]
  have herrnil : ∀ l : List RawUnit,
      (∀ v ∈ l, ∃ p : Document × List Fragment, docOutcome reg v = .ok p) →
      errEntries reg l = [] := by
    intro l hl
    refine List.filterMap_eq_nil_iff.mpr (fun v hv => ?_)
    obtain ⟨p, hp'⟩ := hl v hv
    simp [hp']
  have hdup : firstDup ((okEntries reg (pre ++ u :: post)).map
      fun p => p.1.slug) = none := by
    rw [hokeq, firstDup_eq_none_iff]
    exact hnodup
  refine ⟨m, hm, hres, hdo, ?_, ?_⟩
  · intro p h
    rw [hdo] at h
    cases h
  refine ⟨_, buildAll_eq_of_nodup reg _ hdup, ?_, ?_⟩
  · show errEntries reg (pre ++ u :: post) =
      [(slugOfUnit u, BuildError.unknownComponent m)]
    rw [errEntries_append, errEntries_cons_error reg u post _ hdo]
    rw [herrnil pre (fun v hv => hok v (List.mem_append_left _ hv)),
      herrnil post (fun v hv => hok v (List.mem_append_right _ hv))]
    rfl
  · intro v hv p hp'
    have hv' : v ∈ pre ++ u :: post := by
      rcases List.mem_append.mp hv with h | h
      · exact List.mem_append_left _ h
      · exact List.mem_append_right _ (List.mem_cons_of_mem _ h)
    exact List.mem_map.mpr
      ⟨p, mem_okEntries reg (pre ++ u :: post) v p hv' hp', rfl⟩

/-- C2 witness: the pricing unit, its body extended with a reference to
the unregistered name "cloud", fails atomically between two healthy
units. -/
theorem unknown_component_fails_document_atomically_witness :
    (BodyNode.componentRef "cloud" ∈
      (pricingUnit.body ++ [BodyNode.componentRef "cloud"])) ∧
    (∃ m, lookupReg [("CloudIcon", CloudIcon)] m = none ∧
      resolveBody [("CloudIcon", CloudIcon)]
          ({ pricingUnit with
              body := pricingUnit.body ++ [BodyNode.componentRef "cloud"]
            } : RawUnit).body =
        .error (.unknownComponent m) ∧
      docOutcome [("CloudIcon", CloudIcon)]
          { pricingUnit with
              body := pricingUnit.body ++ [BodyNode.componentRef "cloud"] } =
        .error (.unknownComponent m) ∧
      (∀ p : Document × List Fragment,
        docOutcome [("CloudIcon", CloudIcon)]
            { pricingUnit with
                body :=
                  pricingUnit.body ++ [BodyNode.componentRef "cloud"] } ≠
          .ok p) ∧
      ∃ res, buildAll [("CloudIcon", CloudIcon)]
          ([locoUnit] ++
            ({ pricingUnit with
                body :=
                  pricingUnit.body ++ [BodyNode.componentRef "cloud"] } :
              RawUnit) :: [aiToolUnit]) = .ok res ∧
        res.report =
          [(slugOfUnit
              { pricingUnit with
                  body :=
                    pricingUnit.body ++ [BodyNode.componentRef "cloud"] },
            BuildError.unknownComponent m)] ∧
        ∀ v ∈ [locoUnit] ++ [aiToolUnit],
          ∀ p : Document × List Fragment,
            docOutcome [("CloudIcon", CloudIcon)] v = .ok p →
            (p.1.slug, p.2) ∈ res.manifest) := by
  refine ⟨List.mem_append_right _ (List.mem_cons_self _ _), ?_⟩
  exact unknown_component_fails_document_atomically
    [("CloudIcon", CloudIcon)] [locoUnit] [aiToolUnit]
    { pricingUnit with
        body := pricingUnit.body ++ [BodyNode.componentRef "cloud"] }
    "cloud"
    { slug := "2025-03-19-pricing-update",
      title := "Introducing New Shuttle Pricing: Simple and Production-Ready",
      author := "shuttle",
      date := { year := 2025, month := 3, day := 19, hour := 14,
                minute := 30, second := 0 },
      tags := ["shuttle"],
      description := some "Following the launch of our new platform late last year, we're updating our pricing structure",
      thumb := some "pricing-update-thumb.png",
      cover := some "pricing-update-thumb.png",
      body := pricingUnit.body ++ [BodyNode.componentRef "cloud"] }
    (List.mem_append_right _ (List.mem_cons_self _ _)) rfl rfl
    (by
      intro v hv
      rcases List.mem_append.mp hv with h | h <;>
        simp only [List.mem_singleton] at h <;> subst h
      · exact ⟨_, rfl⟩
      · exact ⟨_, rfl⟩)
    (by decide)

/-- C3: whenever two successfully processed documents of the input set
share a computed slug — wherever the two sit in the set — the whole
build aborts with a `DuplicateSlug` error and no manifest is
produced. -/
theorem duplicate_slug_aborts_build (reg : Registry)
    (pre mid post : List RawUnit) (u v : RawUnit)
    (pu pv : Document × List Fragment)
    (hu : docOutcome reg u = .ok pu) (hv : docOutcome reg v = .ok pv)
    (hslug : pu.1.slug = pv.1.slug) :
    (∃ s, buildAll reg (pre ++ u :: (mid ++ v :: post)) =
      .error (.duplicateSlug s)) ∧
    ∀ res, buildAll reg (pre ++ u :: (mid ++ v :: post)) ≠ .ok res := by
  have hok : okEntries reg (pre ++ u :: (mid ++ v :: post)) =
      okEntries reg pre ++ pu ::
        (okEntries reg mid ++ pv :: okEntries reg post) := by
    rw [okEntries_append, okEntries_cons_ok reg u _ pu hu,
      okEntries_append, okEntries_cons_ok reg v post pv hv]
  cases hdup : firstDup ((okEntries reg (pre ++ u :: (mid ++ v :: post))).map
      fun p => p.1.slug) with
  | none =>
    exfalso
    have hnd := (firstDup_eq_none_iff _).mp hdup
    rw [hok] at hnd
    simp only [List.map_append, List.map_cons] at hnd
    have hnd2 := (List.nodup_append.mp hnd).2.1
    have : pu.1.slug ∉ (okEntries reg mid).map (fun p => p.1.slug) ++
        pv.1.slug :: (okEntries reg post).map (fun p => p.1.slug) :=
      (List.nodup_cons.mp hnd2).1
    exact this (List.mem_append_right _ (hslug ▸ List.mem_cons_self _ _))
  | some s =>
    have heq := buildAll_eq_of_dup reg _ s hdup
    exact ⟨⟨s, heq⟩, fun res h => by rw [heq] at h; cases h⟩

/-- C3 witness: two copies of the loco unit under different paths but an
identical explicit slug abort the build wherever they sit. -/
theorem duplicate_slug_aborts_build_witness :
    docOutcome [("CloudIcon", CloudIcon)]
        { locoUnit with
            header := { locoUnit.header with slug := some "loco" } } =
      .ok ({ slug := "loco",
             title := "A Full Stack SaaS Template with Loco",
             author := "josh",
             date := { year := 2024, month := 2, day := 29, hour := 15,
                       minute := 30, second := 0 },
             tags := ["rust", "fullstack", "loco", "guide"],
             description := some "Exploring how to use the Loco.rs framework to write a SaaS, complete with payments.",
             thumb := some "fullstack-loco-rust-thumb.png",
             cover := some "fullstack-loco-rust-thumb.png",
             body := locoUnit.body },
           [Fragment.text "Loco is a Rust framework that aims to do it all - authentication, tasks, migrations and more."]) ∧
    ((∃ s, buildAll [("CloudIcon", CloudIcon)]
        ([pricingUnit] ++
          ({ locoUnit with
              header := { locoUnit.header with slug := some "loco" } } :
            RawUnit) :: [aiToolUnit] ++
          ({ locoUnit with
              path := "_blog/loco-copy.mdx",
              header := { locoUnit.header with slug := some "loco" } } :
            RawUnit) :: []) =
      .error (.duplicateSlug s)) ∧
    ∀ res, buildAll [("CloudIcon", CloudIcon)]
        ([pricingUnit] ++
          ({ locoUnit with
              header := { locoUnit.header with slug := some "loco" } } :
            RawUnit) :: [aiToolUnit] ++
          ({ locoUnit with
              path := "_blog/loco-copy.mdx",
              header := { locoUnit.header with slug := some "loco" } } :
            RawUnit) :: []) ≠ .ok res) := by
  refine ⟨rfl, ?_⟩
  exact duplicate_slug_aborts_build [("CloudIcon", CloudIcon)]
    [pricingUnit] [aiToolUnit] []
    { locoUnit with
        header := { locoUnit.header with slug := some "loco" } }
    { locoUnit with
        path := "_blog/loco-copy.mdx",
        header := { locoUnit.header with slug := some "loco" } }
    (⟨{ slug := "loco",
        title := "A Full Stack SaaS Template with Loco",
        author := "josh",
        date := { year := 2024, month := 2, day := 29, hour := 15,
                  minute := 30, second := 0 },
        tags := ["rust", "fullstack", "loco", "guide"],
        description := some "Exploring how to use the Loco.rs framework to write a SaaS, complete with payments.",
        thumb := some "fullstack-loco-rust-thumb.png",
        cover := some "fullstack-loco-rust-thumb.png",
        body := locoUnit.body },
      [Fragment.text "Loco is a Rust framework that aims to do it all - authentication, tasks, migrations and more."]⟩)
    (⟨{ slug := "loco",
        title := "A Full Stack SaaS Template with Loco",
        author := "josh",
        date := { year := 2024, month := 2, day := 29, hour := 15,
                  minute := 30, second := 0 },
        tags := ["rust", "fullstack", "loco", "guide"],
        description := some "Exploring how to use the Loco.rs framework to write a SaaS, complete with payments.",
        thumb := some "fullstack-loco-rust-thumb.png",
        cover := some "fullstack-loco-rust-thumb.png",
        body := locoUnit.body },
      [Fragment.text "Loco is a Rust framework that aims to do it all - authentication, tasks, migrations and more."]⟩)
    rfl rfl rfl

/-- C4: the master sequence the Content Index Builder produces is sorted
by publish date-time descending with ties broken by slug ascending (a
total, transitive — hence deterministic — order), it is a permutation of
the document set, a document sits in a tag's index exactly when it
belongs to the set and carries the tag; in particular the spec's example
documents dated 2023-08-28 and 2023-06-16 order as 2023-08-28 first from
either input order, each appearing only in its own tag's index. -/
theorem master_sequence_sorted_and_tag_indices (docs : List Document) :
    List.Sorted docBefore (masterSeq docs) ∧
    (masterSeq docs).Perm docs ∧
    (∀ a b, docBefore a b ∨ docBefore b a) ∧
    (∀ d t, d ∈ tagIndexOf docs t ↔ d ∈ docs ∧ t ∈ d.tags) ∧
    masterSeq [docJun16, docAug28] = [docAug28, docJun16] ∧
    masterSeq [docAug28, docJun16] = [docAug28, docJun16] ∧
    tagIndexOf [docJun16, docAug28] "alpha" = [docJun16] ∧
    tagIndexOf [docJun16, docAug28] "beta" = [docAug28] := by
  refine ⟨List.sorted_insertionSort docBefore docs,
    List.perm_insertionSort docBefore docs,
    IsTotal.total, ?_, by decide, by decide, by decide, by decide⟩
  intro d t
  simp [tagIndexOf, masterSeq, List.mem_filter, List.elem_iff]

/-- C5: a cached manifest entry is reused if and only if its stored
fingerprint equals the current content fingerprint of the document's raw
bytes; rebuilding with every unit unchanged reuses every cached entry;
changing one document's bytes (so that its entry's fingerprint no longer
matches) recomputes only that document while all others are still
reused; and a successful rebuild always recomputes the master sequence
from the whole current document set. -/
theorem cache_reuse_iff_fingerprint_match (reg : Registry)
    (cache : List (String × CacheEntry)) :
    (∀ (u : RawUnit) (e : CacheEntry),
      lookupCache cache (slugOfUnit u) = some e →
      ((processUnit reg cache u).1 = .reused ↔
        e.fingerprint = fingerprint u.bytes)) ∧
    (∀ units : List RawUnit,
      (∀ u ∈ units, ∃ e, lookupCache cache (slugOfUnit u) = some e ∧
        e.fingerprint = fingerprint u.bytes) →
      ∀ x ∈ rebuildOutcomes reg cache units,
        x.2.1 = EntryOrigin.reused) ∧
    (∀ (pre post : List RawUnit) (u : RawUnit),
      (∀ v ∈ pre ++ post, ∃ e, lookupCache cache (slugOfUnit v) = some e ∧
        e.fingerprint = fingerprint v.bytes) →
      (∀ e, lookupCache cache (slugOfUnit u) = some e →
        e.fingerprint ≠ fingerprint u.bytes) →
      ((processUnit reg cache u).1 = EntryOrigin.recomputed ∧
       ∀ x ∈ rebuildOutcomes reg cache (pre ++ post),
         x.2.1 = EntryOrigin.reused)) ∧
    (∀ (units : List RawUnit) (res : BuildResult),
      rebuild reg cache units = .ok res →
      res.master =
        masterSeq ((rebuildOkEntries reg cache units).map fun p => p.1)) := by
  have hfresh : ∀ units : List RawUnit,
      (∀ u ∈ units, ∃ e, lookupCache cache (slugOfUnit u) = some e ∧
        e.fingerprint = fingerprint u.bytes) →
      ∀ x ∈ rebuildOutcomes reg cache units,
        x.2.1 = EntryOrigin.reused := by
    intro units hall x hx
    obtain ⟨u, hu, rfl⟩ := List.mem_map.mp hx
    obtain ⟨e, he, hf⟩ := hall u hu
    show (processUnit reg cache u).1 = EntryOrigin.reused
    exact (processUnit_reused_iff reg cache u e he).mpr hf
  refine ⟨processUnit_reused_iff reg cache, hfresh, ?_, ?_⟩
  · intro pre post u hall hstale
    constructor
    · cases he : lookupCache cache (slugOfUnit u) with
      | none => simp [processUnit, he]
      | some e => simp [processUnit, he, hstale e he]
    · exact hfresh (pre ++ post) hall
  · intro units res h
    exact rebuild_ok_master reg cache units res h

/-- C5 witness: with a cache holding the pricing unit's entry at its
current fingerprint the entry is reused, and with the fingerprint
perturbed it is recomputed. -/
theorem cache_reuse_iff_fingerprint_match_witness :
    (processUnit [("CloudIcon", CloudIcon)]
        [("2025-03-19-pricing-update", pricingCacheEntry)]
        pricingUnit).1 = EntryOrigin.reused ∧
    (processUnit [("CloudIcon", CloudIcon)]
        [("2025-03-19-pricing-update",
          { pricingCacheEntry with
              fingerprint := pricingCacheEntry.fingerprint + 1 })]
        pricingUnit).1 = EntryOrigin.recomputed := by
  constructor
  · obtain ⟨h1, -, -, -⟩ :=
      cache_reuse_iff_fingerprint_match [("CloudIcon", CloudIcon)]
        [("2025-03-19-pricing-update", pricingCacheEntry)]
    exact (h1 pricingUnit pricingCacheEntry rfl).mpr rfl
  · obtain ⟨-, -, h3, -⟩ :=
      cache_reuse_iff_fingerprint_match [("CloudIcon", CloudIcon)]
        [("2025-03-19-pricing-update",
          { pricingCacheEntry with
              fingerprint := pricingCacheEntry.fingerprint + 1 })]
    refine (h3 [] [] pricingUnit ?_ ?_).1
    · intro v hv
      exact absurd hv (List.not_mem_nil v)
    · intro e he
      have hl : lookupCache
          [("2025-03-19-pricing-update",
            { pricingCacheEntry with
                fingerprint := pricingCacheEntry.fingerprint + 1 })]
          (slugOfUnit pricingUnit) =
          some { pricingCacheEntry with
              fingerprint := pricingCacheEntry.fingerprint + 1 } := rfl
      rw [hl] at he
      cases he
      exact Nat.succ_ne_self _

/-- C10 counterexample: the launchpad unit does not parse successfully —
its header has no author field, a required field, so parsing fails with
`MalformedContent "author"` and yields no document. -/
theorem launchpad_unit_does_not_parse :
    parseDocument launchpadUnit = .error (.malformedContent "author") ∧
    (parseDocument launchpadUnit).toOption = none :=
  ⟨rfl, rfl⟩

/-- C10 (amended): the publish date-time is taken solely from the header
`date` field, never from the file path — changing a unit's path never
changes the parsed date — and the launchpad unit's header date
2023-08-28T16:00:00 passes date validation even though its path segment
spells the impossible calendar date 2023-28-08, while its path-derived
slug keeps the path's literal, unvalidated date text; the unit itself
fails parsing only for its missing author, and with any non-empty author
supplied it parses successfully, ordered by the header date. -/
theorem header_date_only_from_header (u : RawUnit) (p a : String)
    (ha : a ≠ "") :
    Except.map Document.date (parseDocument { u with path := p }) =
      Except.map Document.date (parseDocument u) ∧
    parseDateTime "2023-08-28T16:00:00" =
      some { year := 2023, month := 8, day := 28, hour := 16,
             minute := 0, second := 0 } ∧
    slugOfUnit launchpadUnit = "2023-28-08-issue-07-more-CRUD" ∧
    ∃ d, parseDocument
        { launchpadUnit with
            header := { launchpadUnit.header with author := some a } } =
          .ok d ∧
      d.date = { year := 2023, month := 8, day := 28, hour := 16,
                 minute := 0, second := 0 } ∧
      d.slug = "2023-28-08-issue-07-more-CRUD" ∧
      d.author = a := by
  refine ⟨?_, rfl, rfl, ?_⟩
  · rw [parseDocument_path_update]
    cases parseDocument u <;> simp [Except.map]
  · have hstep : parseDocument
        { launchpadUnit with
            header := { launchpadUnit.header with author := some a } } =
        if a = "" then .error (.malformedContent "author")
        else .ok { slug := "2023-28-08-issue-07-more-CRUD",
                   title := "Issue #7: A little more CRUD",
                   author := a,
                   date := { year := 2023, month := 8, day := 28,
                             hour := 16, minute := 0, second := 0 },
                   tags := [],
                   description := some "Learn more about databases in Rust by writing a CRUD application. This is part 2.",
                   thumb := none, cover := none,
                   body := [.text "# Shuttle Launchpad #7: A little more CRUD"] } := rfl
    rw [hstep, if_neg ha]
    exact ⟨_, rfl, rfl, rfl, rfl⟩

/-- C10 witness: instantiated at the pricing unit moved to another path
and at the author "josh" for the launchpad unit. -/
theorem header_date_only_from_header_witness :
    Except.map Document.date
        (parseDocument { pricingUnit with path := "moved/elsewhere.mdx" }) =
      Except.map Document.date (parseDocument pricingUnit) ∧
    parseDateTime "2023-08-28T16:00:00" =
      some { year := 2023, month := 8, day := 28, hour := 16,
             minute := 0, second := 0 } ∧
    slugOfUnit launchpadUnit = "2023-28-08-issue-07-more-CRUD" ∧
    ∃ d, parseDocument
        { launchpadUnit with
            header := { launchpadUnit.header with author := some "josh" } } =
          .ok d ∧
      d.date = { year := 2023, month := 8, day := 28, hour := 16,
                 minute := 0, second := 0 } ∧
      d.slug = "2023-28-08-issue-07-more-CRUD" ∧
      d.author = "josh" :=
  header_date_only_from_header pricingUnit "moved/elsewhere.mdx" "josh"
    (by decide)

end Www
